import Mathlib

/-!
Shallow embedding of the scene-graph path-manager subsystem of the
Omniverse tools extension (files `tools/usd/usd_tools.py`,
`tools/utils/usd_tools.py`, `tools/templates/template_tools.py`,
`tools/utils/alerts.py`, `logic.py`).

A USD stage is modelled as a list of prims in traversal order together
with per-path attribute maps (visibility, rotation keyframes, payloads,
the default prim and the load rule).  Prim paths are slash-delimited in
the source; here a path is the list of its segments.  Machine floats
appear only as the keyframe angles `-45.0 * i`, which are exact small
integers, so they are modelled as `Int`.
-/

namespace Omniverse

/-- A prim path: the list of path segments below the pseudo-root `/`. -/
abbrev PrimPath := List String

/-- The two prim schemas this subsystem creates: `UsdGeom.Xform` (the
spec's `Group`) and `UsdGeom.Scope`. -/
inductive PrimType where
  | Xform
  | Scope
deriving DecidableEq, Repr

/-- Authored visibility attribute values (`UsdGeom.Tokens.inherited` /
`UsdGeom.Tokens.invisible`). -/
inductive Vis where
  | inherited
  | invisible
deriving DecidableEq, Repr

/-- A prim: its path and its schema type. -/
structure Prim where
  path : PrimPath
  typeName : PrimType
deriving DecidableEq, Repr

/-- `prim.GetName()`: the last path segment. -/
def Prim.name (p : Prim) : String := p.path.getLastD ""

/-- Mutation events performed on the stage, used to record what a call
authors (the source mutates the ambient stage in place). -/
inductive Event where
  | definePrim (p : PrimPath) (t : PrimType)
  | setDefaultPrim (p : PrimPath)
  | addRotYOp (p : PrimPath)
  | setRotKey (p : PrimPath) (frame : Nat) (angle : Int)
deriving DecidableEq, Repr

/-- A USD stage: prims in `stage.Traverse()` order plus per-path state. -/
structure Stage where
  prims : List Prim
  vis : PrimPath → Vis
  defaultPrim : Option PrimPath
  hasRotY : PrimPath → Bool
  rotKeys : PrimPath → Nat → Option Int
  payloads : PrimPath → List String
  loadAll : Bool

/-- A fresh, empty stage (no authored visibility: everything inherited). -/
def emptyStage : Stage :=
  { prims := []
    vis := fun _ => Vis.inherited
    defaultPrim := none
    hasRotY := fun _ => false
    rotKeys := fun _ _ => none
    payloads := fun _ => []
    loadAll := false }

/-- `stage.GetPrimAtPath(path)`: the prim at exactly `path`, if any. -/
def getPrimAtPath (s : Stage) (p : PrimPath) : Option Prim :=
  s.prims.find? (fun pr => pr.path == p)

/-- `stage.GetPrimAtPath(path).IsValid()`. -/
def primExists (s : Stage) (p : PrimPath) : Bool :=
  (getPrimAtPath s p).isSome

/-- `UsdGeom.<T>.Define(stage, path)` on a path whose prim is absent:
the new prim is appended to the traversal. -/
def definePrim (s : Stage) (p : PrimPath) (t : PrimType) : Stage :=
  { s with prims := s.prims ++ [{ path := p, typeName := t }] }

/-- `get_or_create_scope` (tools/usd/usd_tools.py, also duplicated in
tools/utils/usd_tools.py and template_tools.py): reuse the prim at
`path` if valid, else define a Scope there.  Returns the event list of
defines performed. -/
def get_or_create_scope (s : Stage) (p : PrimPath) : Stage × List Event :=
  if primExists s p then (s, [])
  else (definePrim s p PrimType.Scope, [Event.definePrim p PrimType.Scope])

/-- `get_or_create_xform`: reuse the prim at `path` if valid, else
define an Xform there. -/
def get_or_create_xform (s : Stage) (p : PrimPath) : Stage × List Event :=
  if primExists s p then (s, [])
  else (definePrim s p PrimType.Xform, [Event.definePrim p PrimType.Xform])

/-- The fixed bucket path `/World/Models/glass_Xform`. -/
def glass_xform_path : PrimPath := ["World", "Models", "glass_Xform"]

/-- The per-frame Y-rotation write `rotY.Set(-45.0 * i, Usd.TimeCode(i))`. -/
def setRotSample (s : Stage) (i : Nat) : Stage :=
  { s with rotKeys := fun q f =>
      if q = glass_xform_path ∧ f = i then some (-45 * (i : Int)) else s.rotKeys q f }

/-- `create_hierarchy_structure(stage, model_name, sku_name, release)`
(tools/usd/usd_tools.py lines 32-126; the `USDTools` method is the same
body).  Builds
`/World/Models/glass_Xform/{model}_Xform/Release_{release}/{model}_{sku}`,
sets `/World` as defaultPrim, and authors the 8-frame Y-rotation
animation on `/World/Models/glass_Xform` on every call.  The returned
event list records the mutations performed by this call. -/
def create_hierarchy_structure (s : Stage) (model_name sku_name release : String) :
    Stage × List Event :=
  -- 0. Create/get World as root and defaultPrim
  let world_path : PrimPath := ["World"]
  let r0 := get_or_create_xform s world_path
  let s1 : Stage := { r0.1 with defaultPrim := some world_path }
  let e1 : List Event := [Event.setDefaultPrim world_path]
  -- 1. Create Models (Scope) under World
  let models_path : PrimPath := ["World", "Models"]
  let r2 := get_or_create_scope s1 models_path
  -- 2. Create glass_Xform (Xform) under Models
  let r3 := get_or_create_xform r2.1 glass_xform_path
  -- Apply 45-degree rotation animation on Y axis to glass_Xform:
  -- the rotate-Y op is added only if absent, but the 8 samples
  -- (-45.0 * i at TimeCode i, i = 1..8) are re-authored on every call.
  let r4 : Stage × List Event :=
    if r3.1.hasRotY glass_xform_path then (r3.1, [])
    else ({ r3.1 with hasRotY := fun q => if q = glass_xform_path then true else r3.1.hasRotY q },
          [Event.addRotYOp glass_xform_path])
  let s5 := (List.range' 1 8).foldl setRotSample r4.1
  let e5 := (List.range' 1 8).map (fun i => Event.setRotKey glass_xform_path i (-45 * (i : Int)))
  -- 3. Create model_name_Xform (Xform) under glass_Xform
  let model_xform_path : PrimPath := ["World", "Models", "glass_Xform", model_name ++ "_Xform"]
  let r6 := get_or_create_xform s5 model_xform_path
  -- 4. Create Release (Scope) under model_name_Xform
  let release_scope_path : PrimPath := model_xform_path ++ ["Release_" ++ release]
  let r7 := get_or_create_scope r6.1 release_scope_path
  -- 5. Create SKU scope
  let sku_scope_path : PrimPath := release_scope_path ++ [model_name ++ "_" ++ sku_name]
  let r8 := get_or_create_scope r7.1 sku_scope_path
  (r8.1, r0.2 ++ e1 ++ r2.2 ++ r3.2 ++ r4.2 ++ e5 ++ r6.2 ++ r7.2 ++ r8.2)

/-- The canonical SKU prim path built in `logic.py`
(`_create_hierarchy_and_import_payload`):
`/World/Models/glass_Xform/{model}_Xform/Release_{release}/{model}_{sku}`. -/
def sku_prim_path (model_value sku release : String) : PrimPath :=
  ["World", "Models", "glass_Xform", model_value ++ "_Xform",
   "Release_" ++ release, model_value ++ "_" ++ sku]

/-- `_default_prim_set(stage)` (template_tools.py lines 80-87): ensure
`/World` (Xform), set it as defaultPrim and ensure `/World/Setup`
(Scope) under it. -/
def _default_prim_set (s : Stage) : Stage :=
  let r0 := get_or_create_xform s ["World"]
  let s1 : Stage := { r0.1 with defaultPrim := some ["World"] }
  let r2 := get_or_create_scope s1 ["World", "Setup"]
  r2.1

/-- Bool-valued infix test on lists (needle occurs contiguously). -/
def infixOfB (needle : List Char) : List Char → Bool
  | [] => needle.isEmpty
  | c :: cs => needle.isPrefixOf (c :: cs) || infixOfB needle cs

/-- The Python substring test `sub in s`. -/
def containsSub (sub s : String) : Bool :=
  infixOfB sub.toList s.toList

/-- The Python test `s.startswith(pre)`, on the character lists. -/
def strStartsWith (s pre : String) : Bool :=
  pre.toList.isPrefixOf s.toList

/-- The naming-convention kind dispatch of `_get_or_create_prim`
(tools/usd/usd_tools.py lines 252-255):
`if "_Xform" in part or part == "World": Xform else Scope`. -/
def kindFor (part : String) : PrimType :=
  if containsSub "_Xform" part || part == "World" then PrimType.Xform else PrimType.Scope

/-- The ambient filesystem / remote-store oracle consumed by
`check_usd_file_exists`. -/
structure FileSystem where
  pathExists : String → Bool
  isFile : String → Bool
  remoteOpens : String → Bool

/-- `check_usd_file_exists(file_path)` (tools/usd/usd_tools.py lines
128-162): Omniverse URLs are probed by opening the stage, local paths
with `os.path.exists` and `os.path.isfile`. -/
def check_usd_file_exists (fs : FileSystem) (file_path : String) : Bool :=
  if strStartsWith file_path "omniverse://" then fs.remoteOpens file_path
  else fs.pathExists file_path && fs.isFile file_path

/-- One iteration of the creation loop of `_get_or_create_prim`: ensure
the prefix of length `kk + 1` exists, creating it with the
naming-convention kind if missing. -/
def create_missing_step (parts : PrimPath) (acc : Stage) (kk : Nat) : Stage :=
  let cur := parts.take (kk + 1)
  if primExists acc cur then acc
  else definePrim acc cur (kindFor (parts.getD kk ""))

/-- `_get_or_create_prim(stage, path)` (tools/usd/usd_tools.py lines
213-257).  First searches the whole stage for a prim whose *name*
matches the last path segment and returns the first hit; only when no
prim anywhere bears that name does it create the missing prefixes of
`path` (with `kindFor` deciding the type of each created segment) and
return the prim at `path`. -/
def _get_or_create_prim (s : Stage) (path : PrimPath) : Stage × Option Prim :=
  -- First search by name
  let prim_name := path.getLastD ""
  match s.prims.find? (fun pr => pr.name == prim_name) with
  | some pr => (s, some pr)
  | none =>
    -- If not found, create the hierarchy (empty segments are skipped,
    -- mirroring `if not part: continue`)
    let parts := path.filter (fun part => part ≠ "")
    let s' := (List.range parts.length).foldl (create_missing_step parts) s
    (s', getPrimAtPath s' path)

/-- The result taxonomy of the attach operation (§4.3 of the spec maps
the source's return/notification behaviour onto these tags). -/
inductive AttachResult where
  | success
  | notFound
  | attachError
deriving DecidableEq, Repr

/-- Severity of a user-visible notification
(`omni.kit.notification_manager.NotificationStatus`). -/
inductive NotifStatus where
  | info
  | warning
deriving DecidableEq, Repr

/-- A user-visible transient notification (`post_notification`).
Console `print` calls are *not* notifications. -/
structure Notif where
  status : NotifStatus
  message : String
deriving DecidableEq, Repr

/-- `assign_payload(target_path, payload_asset_path)` (tools/usd/
usd_tools.py lines 164-211): raises when no stage is active, otherwise
finds/creates the target prim, appends the payload to it and sets the
global load rule to LoadAll.  A raise is modelled as `Except.error`
carrying the exception text. -/
def assign_payload (s? : Option Stage) (target_path : PrimPath)
    (payload_asset_path : String) : Except String (Stage × Prim) :=
  match s? with
  | none => Except.error "No active stage found"
  | some stage =>
    let r := _get_or_create_prim stage target_path
    match r.2 with
    | none =>
      -- `AddPayload` on an invalid prim path raises inside the host
      Except.error "invalid target prim"
    | some target_prim =>
      Except.ok
        ({ r.1 with
            payloads := fun q =>
              if q = target_prim.path then r.1.payloads target_prim.path ++ [payload_asset_path]
              else r.1.payloads q
            loadAll := true },
         target_prim)

/-- `import_payload(payload_usd_path, target_path)` (tools/usd/
usd_tools.py lines 259-321).  Validates existence first; a missing file
produces a warning notification and no mutation; an exception from
`assign_payload` produces a warning notification; success produces an
info notification.  The `AttachResult` component records the spec's
taxonomy for each exit. -/
def import_payload (fs : FileSystem) (s? : Option Stage)
    (payload_usd_path : String) (target_path : PrimPath) :
    Option Stage × AttachResult × List Notif :=
  if check_usd_file_exists fs payload_usd_path then
    match assign_payload s? target_path payload_usd_path with
    | Except.ok (s', _) =>
      (some s', AttachResult.success,
       [{ status := NotifStatus.info, message := "Payload successfully imported" }])
    | Except.error e =>
      (s?, AttachResult.attachError,
       [{ status := NotifStatus.warning, message := "ERROR during import: " ++ e }])
  else
    (s?, AttachResult.notFound,
     [{ status := NotifStatus.warning,
        message := "ERROR: USD file not found: " ++ payload_usd_path }])

/-! ## Visibility coordinator (`USDTools`, tools/utils/usd_tools.py lines 341-512) -/

/-- `is_descendant_of(prim, ancestor)` (lines 350-358): walk the parent
chain of `prim` (stopping before the pseudo-root `/`) looking for
`ancestor`'s path.  On a stage whose namespace is prefix-closed this is
exactly: `ancestor.path` is a proper prefix of `prim.path`. -/
def isDescendantOf (p a : PrimPath) : Bool :=
  a.isPrefixOf p && p != a

/-- Proper nonempty-prefix test: `a` is a strict ancestor path of `p`
(and not the pseudo-root). -/
def isStrictAncB (a p : PrimPath) : Bool :=
  a != [] && a.isPrefixOf p && a != p

/-- `set_visibility(prim, visible)` (lines 360-377): author `inherited`
or `invisible` on the prim's visibility attribute.  Both prim types in
this model are Imageable, so the early-return guard never fires. -/
def set_visibility (s : Stage) (p : PrimPath) (visible : Bool) : Stage :=
  { s with vis := fun q =>
      if q = p then (if visible then Vis.inherited else Vis.invisible) else s.vis q }

/-- The parent chain walked by `make_parents_visible`: all proper
nonempty prefixes of `p` (the walk stops before `/`). -/
def strictAncestors (p : PrimPath) : List PrimPath :=
  (List.range' 1 (p.length - 1)).map (fun kk => p.take kk)

/-- `make_parents_visible(prim)` (lines 379-389): force every ancestor
up to (but excluding) the pseudo-root to visible. -/
def make_parents_visible (s : Stage) (p : PrimPath) : Stage :=
  (strictAncestors p).foldl (fun acc a => set_visibility acc a true) s

/-- `make_children_visible(parent_prim)` (lines 391-398): recursively
force every descendant prim to visible.  On a prefix-closed stage the
prims reached by the recursion through `GetAllChildren` are exactly the
prims whose path strictly extends `parent`, each authored `inherited`. -/
def make_children_visible (s : Stage) (parent : PrimPath) : Stage :=
  s.prims.foldl (fun acc pr =>
    if isDescendantOf pr.path parent then set_visibility acc pr.path true else acc) s

/-- `find_scope_by_name(stage, scope_name)` (lines 341-348): first prim
in traversal order that is a Scope with the given name. -/
def find_scope_by_name (s : Stage) (scope_name : String) : Option Prim :=
  s.prims.find? (fun pr => pr.typeName == PrimType.Scope && pr.name == scope_name)

/-- `constants.SCOPES_TO_KEEP`, the default keep list. -/
def SCOPES_TO_KEEP : List String := ["Models", "Setup", "Lights", "Cameras"]

/-- The `keep_scope_prims` dictionary of `hide_all_scopes_except`
(lines 430-438): each keep name that resolves to a Scope, paired with
the first Scope of that name.  Python dict insertion order equals this
list order, and duplicate names map to the same found prim, so an
association list with first-match lookup is equivalent. -/
def keep_found (s : Stage) (keep_scopes : List String) : List (String × Prim) :=
  keep_scopes.filterMap (fun n => (find_scope_by_name s n).map (fun pr => (n, pr)))

/-- Exit taxonomy of the isolate operation (§4.4 of the spec maps the
source's print-and-return exits onto these tags). -/
inductive IsolateResult where
  | ok
  | targetNotFound
  | noStage
deriving DecidableEq, Repr

/-- One iteration of the `for prim in stage.Traverse()` visibility loop
(lines 450-486): classify a prim and author its visibility. -/
def isolate_step (tpath : PrimPath) (keepPrims : List (String × Prim))
    (acc : Stage) (pr : Prim) : Stage :=
  if pr.typeName = PrimType.Scope then
    if pr.path = tpath then
      -- Target scope: visible, and force-show its whole subtree
      make_children_visible (set_visibility acc pr.path true) pr.path
    else if isDescendantOf pr.path tpath then
      -- Child/descendant of target scope: visible
      make_children_visible (set_visibility acc pr.path true) pr.path
    else
      match keepPrims.lookup pr.name with
      | some kp =>
        if pr.path = kp.path then
          -- Exception-list scope: visible (children shown here, but each
          -- descendant scope is re-classified by its own loop iteration)
          make_children_visible (set_visibility acc pr.path true) pr.path
        else set_visibility acc pr.path false
      | none =>
        -- Other scopes: hide
        set_visibility acc pr.path false
  else acc

/-- `hide_all_scopes_except(target_scope_name, keep_scopes)` (lines
400-512).  Returns the updated stage, the exit tag, and the list of
user-visible notifications posted (this method only `print`s on its
failure exits, so that list is always empty). -/
def hide_all_scopes_except (s? : Option Stage) (target_scope_name : String)
    (keep_scopes : List String) : Option Stage × IsolateResult × List Notif :=
  match s? with
  | none =>
    -- print("Error: No active stage"); return
    (none, IsolateResult.noStage, [])
  | some stage =>
    match find_scope_by_name stage target_scope_name with
    | none =>
      -- print(f"ERROR: Scope ... not found!"); return
      (some stage, IsolateResult.targetNotFound, [])
    | some target_scope_prim =>
      let keepPrims := keep_found stage keep_scopes
      let s1 := stage.prims.foldl (isolate_step target_scope_prim.path keepPrims) stage
      let s2 := make_parents_visible s1 target_scope_prim.path
      let s3 := keepPrims.foldl (fun acc e => make_parents_visible acc e.2.path) s2
      (some s3, IsolateResult.ok, [])

/-- Stage well-formedness used by the visibility theorems: the traversal
never lists a prim before one of its ancestors (in particular all paths
are distinct).  `stage.Traverse()` returns depth-first pre-order, which
satisfies this. -/
def StageOrdered (s : Stage) : Prop :=
  s.prims.Pairwise (fun a b => b.path.isPrefixOf a.path = false)

instance (s : Stage) : Decidable (StageOrdered s) := by
  unfold StageOrdered; infer_instance

/-- The visible-set formula asserted by the claim, written from the
spec's words: subtree of the first Scope named `T`, subtrees of the
first Scope found for each keep name, and all ancestors of those
nodes. -/
def claimVisible (s : Stage) (T : String) (keep : List String) (p : PrimPath) : Bool :=
  match find_scope_by_name s T with
  | none => false
  | some t =>
    t.path.isPrefixOf p
    || (keep_found s keep).any (fun e => e.2.path.isPrefixOf p)
    || isStrictAncB p t.path
    || (keep_found s keep).any (fun e => isStrictAncB p e.2.path)

/-- The classification the per-prim loop of `hide_all_scopes_except`
computes for a Scope prim: visible iff it is the target, a descendant
of the target, or the first-found prim of a keep name. -/
def classifyB (tpath : PrimPath) (keepPrims : List (String × Prim)) (pr : Prim) : Bool :=
  pr.path == tpath || isDescendantOf pr.path tpath ||
    (match keepPrims.lookup pr.name with
     | some kp => pr.path == kp.path
     | none => false)

/-- The visible/hidden partition the code actually computes: target
subtree, the keep prims themselves (but *not* their other descendants),
and all ancestors of target and keep prims. -/
def coveredB (s : Stage) (T : String) (keep : List String) (p : PrimPath) : Bool :=
  match find_scope_by_name s T with
  | none => false
  | some t =>
    p == t.path
    || isDescendantOf p t.path
    || (keep_found s keep).any (fun e => p == e.2.path)
    || isStrictAncB p t.path
    || (keep_found s keep).any (fun e => isStrictAncB p e.2.path)

/-! ## Concrete fixtures used by witnesses and counterexamples -/

/-- A small document: a target scope `T`, a keep scope `Keep` with a
scope child `Kid`, all under the `World` root, in traversal order. -/
def exStage1 : Stage :=
  { emptyStage with prims :=
      [ { path := ["World"], typeName := PrimType.Xform }
      , { path := ["World", "T"], typeName := PrimType.Scope }
      , { path := ["World", "Keep"], typeName := PrimType.Scope }
      , { path := ["World", "Keep", "Kid"], typeName := PrimType.Scope } ] }

/-- A document holding `/Other/Leaf`, so that the leaf name `Leaf` is
already taken by a prim outside the requested branch. -/
def exStage3 : Stage :=
  { emptyStage with prims :=
      [ { path := ["Other"], typeName := PrimType.Xform }
      , { path := ["Other", "Leaf"], typeName := PrimType.Scope } ] }

/-- A filesystem on which every existence probe fails. -/
def noFS : FileSystem :=
  { pathExists := fun _ => false, isFile := fun _ => false, remoteOpens := fun _ => false }

/-- A filesystem on which every existence probe succeeds. -/
def allFS : FileSystem :=
  { pathExists := fun _ => true, isFile := fun _ => true, remoteOpens := fun _ => true }

/-! ## Basic lemmas about the stage model -/

theorem primExists_iff {s : Stage} {q : PrimPath} :
    primExists s q = true ↔ ∃ pr ∈ s.prims, pr.path = q := by
  unfold primExists getPrimAtPath
  rw [List.find?_isSome]
  constructor
  · rintro ⟨pr, hmem, hq⟩
    exact ⟨pr, hmem, by simpa using hq⟩
  · rintro ⟨pr, hmem, hq⟩
    exact ⟨pr, hmem, by simpa using hq⟩

theorem getPrimAtPath_eq_some {s : Stage} {q : PrimPath} {pr : Prim}
    (h : getPrimAtPath s q = some pr) : pr ∈ s.prims ∧ pr.path = q := by
  unfold getPrimAtPath at h
  refine ⟨List.mem_of_find?_eq_some h, ?_⟩
  have := List.find?_some h
  simpa using this

theorem mem_definePrim {s : Stage} {p : PrimPath} {t : PrimType} {pr : Prim} :
    pr ∈ (definePrim s p t).prims ↔ pr ∈ s.prims ∨ pr = { path := p, typeName := t } := by
  unfold definePrim
  simp

/-! get/create steps: prim membership and field preservation -/

theorem gocs_mem {s : Stage} {p : PrimPath} {pr : Prim}
    (h : pr ∈ (get_or_create_scope s p).1.prims) :
    pr ∈ s.prims ∨ pr = { path := p, typeName := PrimType.Scope } := by
  unfold get_or_create_scope at h
  split at h
  · exact Or.inl h
  · exact mem_definePrim.mp h

theorem gocx_mem {s : Stage} {p : PrimPath} {pr : Prim}
    (h : pr ∈ (get_or_create_xform s p).1.prims) :
    pr ∈ s.prims ∨ pr = { path := p, typeName := PrimType.Xform } := by
  unfold get_or_create_xform at h
  split at h
  · exact Or.inl h
  · exact mem_definePrim.mp h

theorem gocs_exists_mono {s : Stage} {p q : PrimPath}
    (h : primExists s q = true) : primExists (get_or_create_scope s p).1 q = true := by
  unfold get_or_create_scope
  split
  · exact h
  · rcases primExists_iff.mp h with ⟨pr, hmem, hq⟩
    exact primExists_iff.mpr ⟨pr, mem_definePrim.mpr (Or.inl hmem), hq⟩

theorem gocx_exists_mono {s : Stage} {p q : PrimPath}
    (h : primExists s q = true) : primExists (get_or_create_xform s p).1 q = true := by
  unfold get_or_create_xform
  split
  · exact h
  · rcases primExists_iff.mp h with ⟨pr, hmem, hq⟩
    exact primExists_iff.mpr ⟨pr, mem_definePrim.mpr (Or.inl hmem), hq⟩

theorem gocs_exists_self (s : Stage) (p : PrimPath) :
    primExists (get_or_create_scope s p).1 p = true := by
  unfold get_or_create_scope
  split
  · assumption
  · exact primExists_iff.mpr ⟨{ path := p, typeName := PrimType.Scope },
      mem_definePrim.mpr (Or.inr rfl), rfl⟩

theorem gocx_exists_self (s : Stage) (p : PrimPath) :
    primExists (get_or_create_xform s p).1 p = true := by
  unfold get_or_create_xform
  split
  · assumption
  · exact primExists_iff.mpr ⟨{ path := p, typeName := PrimType.Xform },
      mem_definePrim.mpr (Or.inr rfl), rfl⟩

@[simp] theorem gocs_vis (s : Stage) (p : PrimPath) :
    (get_or_create_scope s p).1.vis = s.vis := by
  unfold get_or_create_scope; split <;> rfl

@[simp] theorem gocx_vis (s : Stage) (p : PrimPath) :
    (get_or_create_xform s p).1.vis = s.vis := by
  unfold get_or_create_xform; split <;> rfl

@[simp] theorem gocs_defaultPrim (s : Stage) (p : PrimPath) :
    (get_or_create_scope s p).1.defaultPrim = s.defaultPrim := by
  unfold get_or_create_scope; split <;> rfl

@[simp] theorem gocx_defaultPrim (s : Stage) (p : PrimPath) :
    (get_or_create_xform s p).1.defaultPrim = s.defaultPrim := by
  unfold get_or_create_xform; split <;> rfl

@[simp] theorem gocs_hasRotY (s : Stage) (p : PrimPath) :
    (get_or_create_scope s p).1.hasRotY = s.hasRotY := by
  unfold get_or_create_scope; split <;> rfl

@[simp] theorem gocx_hasRotY (s : Stage) (p : PrimPath) :
    (get_or_create_xform s p).1.hasRotY = s.hasRotY := by
  unfold get_or_create_xform; split <;> rfl

@[simp] theorem gocs_rotKeys (s : Stage) (p : PrimPath) :
    (get_or_create_scope s p).1.rotKeys = s.rotKeys := by
  unfold get_or_create_scope; split <;> rfl

@[simp] theorem gocx_rotKeys (s : Stage) (p : PrimPath) :
    (get_or_create_xform s p).1.rotKeys = s.rotKeys := by
  unfold get_or_create_xform; split <;> rfl

/-! The rotation-sample fold -/

theorem rotFold_rotKeys (l : List Nat) (s : Stage) (q : PrimPath) (f : Nat) :
    (l.foldl setRotSample s).rotKeys q f =
      if q = glass_xform_path ∧ f ∈ l then some (-45 * (f : Int)) else s.rotKeys q f := by
  induction l generalizing s with
  | nil => simp
  | cons i t ih =>
    rw [List.foldl_cons, ih]
    unfold setRotSample
    by_cases hq : q = glass_xform_path
    · subst hq
      by_cases hf : f ∈ t
      · simp [hf]
      · by_cases hfi : f = i
        · subst hfi
          simp [hf]
        · simp [hf, hfi]
    · simp [hq]

@[simp] theorem rotFold_vis (l : List Nat) (s : Stage) :
    (l.foldl setRotSample s).vis = s.vis := by
  induction l generalizing s with
  | nil => rfl
  | cons i t ih => rw [List.foldl_cons, ih]; rfl

@[simp] theorem rotFold_prims (l : List Nat) (s : Stage) :
    (l.foldl setRotSample s).prims = s.prims := by
  induction l generalizing s with
  | nil => rfl
  | cons i t ih => rw [List.foldl_cons, ih]; rfl

@[simp] theorem rotFold_defaultPrim (l : List Nat) (s : Stage) :
    (l.foldl setRotSample s).defaultPrim = s.defaultPrim := by
  induction l generalizing s with
  | nil => rfl
  | cons i t ih => rw [List.foldl_cons, ih]; rfl

@[simp] theorem rotFold_hasRotY (l : List Nat) (s : Stage) :
    (l.foldl setRotSample s).hasRotY = s.hasRotY := by
  induction l generalizing s with
  | nil => rfl
  | cons i t ih => rw [List.foldl_cons, ih]; rfl

@[simp] theorem gocs_payloads (s : Stage) (p : PrimPath) :
    (get_or_create_scope s p).1.payloads = s.payloads := by
  unfold get_or_create_scope; split <;> rfl

@[simp] theorem gocx_payloads (s : Stage) (p : PrimPath) :
    (get_or_create_xform s p).1.payloads = s.payloads := by
  unfold get_or_create_xform; split <;> rfl

@[simp] theorem gocs_loadAll (s : Stage) (p : PrimPath) :
    (get_or_create_scope s p).1.loadAll = s.loadAll := by
  unfold get_or_create_scope; split <;> rfl

@[simp] theorem gocx_loadAll (s : Stage) (p : PrimPath) :
    (get_or_create_xform s p).1.loadAll = s.loadAll := by
  unfold get_or_create_xform; split <;> rfl

@[simp] theorem rotFold_payloads (l : List Nat) (s : Stage) :
    (l.foldl setRotSample s).payloads = s.payloads := by
  induction l generalizing s with
  | nil => rfl
  | cons i t ih => rw [List.foldl_cons, ih]; rfl

@[simp] theorem rotFold_loadAll (l : List Nat) (s : Stage) :
    (l.foldl setRotSample s).loadAll = s.loadAll := by
  induction l generalizing s with
  | nil => rfl
  | cons i t ih => rw [List.foldl_cons, ih]; rfl

@[simp] theorem primExists_set_default (s : Stage) (d : Option PrimPath) (q : PrimPath) :
    primExists { s with defaultPrim := d } q = primExists s q := rfl

@[simp] theorem primExists_rotFold (l : List Nat) (s : Stage) (q : PrimPath) :
    primExists (l.foldl setRotSample s) q = primExists s q := by
  unfold primExists getPrimAtPath
  rw [rotFold_prims]

theorem gocs_of_exists {s : Stage} {p : PrimPath} (h : primExists s p = true) :
    get_or_create_scope s p = (s, []) := by
  unfold get_or_create_scope
  rw [if_pos h]

theorem gocx_of_exists {s : Stage} {p : PrimPath} (h : primExists s p = true) :
    get_or_create_xform s p = (s, []) := by
  unfold get_or_create_xform
  rw [if_pos h]

/-! `create_hierarchy_structure`: output characterization -/

/-- The six paths targeted by `create_hierarchy_structure`. -/
def hierarchyPaths (m k r : String) : List PrimPath :=
  [ ["World"]
  , ["World", "Models"]
  , glass_xform_path
  , ["World", "Models", "glass_Xform", m ++ "_Xform"]
  , ["World", "Models", "glass_Xform", m ++ "_Xform", "Release_" ++ r]
  , ["World", "Models", "glass_Xform", m ++ "_Xform", "Release_" ++ r, m ++ "_" ++ k] ]

@[simp] theorem stagemk_prims (s : Stage) (v : PrimPath → Vis) (d : Option PrimPath)
    (h : PrimPath → Bool) (rk : PrimPath → Nat → Option Int) (pl : PrimPath → List String)
    (la : Bool) :
    (Stage.mk s.prims v d h rk pl la).prims = s.prims := rfl

@[simp] theorem primExists_mk_prims (s : Stage) (v : PrimPath → Vis) (d : Option PrimPath)
    (h : PrimPath → Bool) (rk : PrimPath → Nat → Option Int) (pl : PrimPath → List String)
    (la : Bool) (q : PrimPath) :
    primExists (Stage.mk s.prims v d h rk pl la) q = primExists s q := rfl

@[simp] theorem primExists_gocs (s : Stage) (p q : PrimPath) :
    primExists (get_or_create_scope s p).1 q = (primExists s q || (q == p)) := by
  unfold get_or_create_scope
  split
  · rename_i h
    by_cases hq : q = p
    · subst hq; simp [h]
    · simp [hq]
  · unfold primExists getPrimAtPath definePrim
    rw [List.find?_append]
    by_cases hq : q = p
    · subst hq
      simp [Option.isSome_or]
    · simp only [Option.isSome_or]
      have hnone : (([{ path := p, typeName := PrimType.Scope }] : List Prim).find?
          (fun pr => pr.path == q)) = none := by
        simp [hq, Ne.symm hq]
      rw [hnone]
      have hqp : (q == p) = false := by simp [hq]
      simp [hqp]

@[simp] theorem primExists_gocx (s : Stage) (p q : PrimPath) :
    primExists (get_or_create_xform s p).1 q = (primExists s q || (q == p)) := by
  unfold get_or_create_xform
  split
  · rename_i h
    by_cases hq : q = p
    · subst hq; simp [h]
    · simp [hq]
  · unfold primExists getPrimAtPath definePrim
    rw [List.find?_append]
    by_cases hq : q = p
    · subst hq
      simp [Option.isSome_or]
    · simp only [Option.isSome_or]
      have hnone : (([{ path := p, typeName := PrimType.Xform }] : List Prim).find?
          (fun pr => pr.path == q)) = none := by
        simp [hq, Ne.symm hq]
      rw [hnone]
      have hqp : (q == p) = false := by simp [hq]
      simp [hqp]

/-! `create_hierarchy_structure`: output characterization -/

theorem chs_vis (s : Stage) (m k r : String) :
    (create_hierarchy_structure s m k r).1.vis = s.vis := by
  unfold create_hierarchy_structure
  dsimp only []
  split <;> simp

theorem chs_payloads (s : Stage) (m k r : String) :
    (create_hierarchy_structure s m k r).1.payloads = s.payloads := by
  unfold create_hierarchy_structure
  dsimp only []
  split <;> simp

theorem chs_loadAll (s : Stage) (m k r : String) :
    (create_hierarchy_structure s m k r).1.loadAll = s.loadAll := by
  unfold create_hierarchy_structure
  dsimp only []
  split <;> simp

theorem chs_defaultPrim (s : Stage) (m k r : String) :
    (create_hierarchy_structure s m k r).1.defaultPrim = some ["World"] := by
  unfold create_hierarchy_structure
  dsimp only []
  split <;> simp

theorem chs_hasRotY (s : Stage) (m k r : String) (q : PrimPath) :
    (create_hierarchy_structure s m k r).1.hasRotY q =
      if q = glass_xform_path then true else s.hasRotY q := by
  unfold create_hierarchy_structure
  dsimp only []
  split <;> rename_i h <;> simp_all

theorem chs_rotKeys (s : Stage) (m k r : String) (q : PrimPath) (f : Nat) :
    (create_hierarchy_structure s m k r).1.rotKeys q f =
      if q = glass_xform_path ∧ 1 ≤ f ∧ f ≤ 8 then some (-45 * (f : Int))
      else s.rotKeys q f := by
  unfold create_hierarchy_structure
  dsimp only []
  split <;>
  · simp only [gocs_rotKeys, gocx_rotKeys, rotFold_rotKeys, List.mem_range'_1]
    simp [Nat.lt_succ_iff]

theorem chs_exists_all (s : Stage) (m k r : String) :
    ∀ p ∈ hierarchyPaths m k r, primExists (create_hierarchy_structure s m k r).1 p = true := by
  intro p hp
  unfold create_hierarchy_structure
  dsimp only []
  simp only [hierarchyPaths, List.mem_cons, List.not_mem_nil, or_false] at hp
  split <;>
  · rcases hp with h|h|h|h|h|h <;> subst h <;> simp

theorem chs_prims_of_exists (s : Stage) (m k r : String)
    (h6 : ∀ p ∈ hierarchyPaths m k r, primExists s p = true) :
    (create_hierarchy_structure s m k r).1.prims = s.prims := by
  have hW := h6 ["World"] (by simp [hierarchyPaths])
  have hM := h6 ["World", "Models"] (by simp [hierarchyPaths])
  have hG := h6 glass_xform_path (by simp [hierarchyPaths])
  have hX := h6 ["World", "Models", "glass_Xform", m ++ "_Xform"] (by simp [hierarchyPaths])
  have hR := h6 ["World", "Models", "glass_Xform", m ++ "_Xform", "Release_" ++ r]
    (by simp [hierarchyPaths])
  have hS := h6 ["World", "Models", "glass_Xform", m ++ "_Xform", "Release_" ++ r, m ++ "_" ++ k]
    (by simp [hierarchyPaths])
  unfold create_hierarchy_structure
  dsimp only []
  split <;> simp [gocx_of_exists, gocs_of_exists, hW, hM, hG, hX, hR, hS]

theorem chs_log_of_built (s : Stage) (m k r : String)
    (h6 : ∀ p ∈ hierarchyPaths m k r, primExists s p = true)
    (hrot : s.hasRotY glass_xform_path = true) :
    (create_hierarchy_structure s m k r).2 =
      Event.setDefaultPrim ["World"] ::
        (List.range' 1 8).map (fun i => Event.setRotKey glass_xform_path i (-45 * (i : Int))) := by
  have hW := h6 ["World"] (by simp [hierarchyPaths])
  have hM := h6 ["World", "Models"] (by simp [hierarchyPaths])
  have hG := h6 glass_xform_path (by simp [hierarchyPaths])
  have hX := h6 ["World", "Models", "glass_Xform", m ++ "_Xform"] (by simp [hierarchyPaths])
  have hR := h6 ["World", "Models", "glass_Xform", m ++ "_Xform", "Release_" ++ r]
    (by simp [hierarchyPaths])
  have hS := h6 ["World", "Models", "glass_Xform", m ++ "_Xform", "Release_" ++ r, m ++ "_" ++ k]
    (by simp [hierarchyPaths])
  unfold create_hierarchy_structure
  dsimp only []
  split
  · simp [gocx_of_exists, gocs_of_exists, hW, hM, hG, hX, hR, hS]
  · rename_i hfalse
    exfalso
    simp [gocx_of_exists, gocs_of_exists, hW, hM, hG, hrot] at hfalse

/-- The prims a call to `create_hierarchy_structure` may add. -/
def hierarchyPrims (m k r : String) : List Prim :=
  [ { path := ["World"], typeName := PrimType.Xform }
  , { path := ["World", "Models"], typeName := PrimType.Scope }
  , { path := glass_xform_path, typeName := PrimType.Xform }
  , { path := ["World", "Models", "glass_Xform", m ++ "_Xform"], typeName := PrimType.Xform }
  , { path := ["World", "Models", "glass_Xform", m ++ "_Xform", "Release_" ++ r],
      typeName := PrimType.Scope }
  , { path := ["World", "Models", "glass_Xform", m ++ "_Xform", "Release_" ++ r, m ++ "_" ++ k],
      typeName := PrimType.Scope } ]

theorem chs_mem (s : Stage) (m k r : String) (pr : Prim)
    (h : pr ∈ (create_hierarchy_structure s m k r).1.prims) :
    pr ∈ s.prims ∨ pr ∈ hierarchyPrims m k r := by
  unfold create_hierarchy_structure at h
  dsimp only [] at h
  unfold hierarchyPrims
  split at h <;>
  · rcases gocs_mem h with h | h
    case inr => subst h; simp
    rcases gocs_mem h with h | h
    case inr => subst h; simp
    rcases gocx_mem h with h | h
    case inr => subst h; simp
    rw [rotFold_prims] at h
    simp only [stagemk_prims] at h
    rcases gocx_mem h with h | h
    case inr => subst h; simp
    rcases gocs_mem h with h | h
    case inr => subst h; simp
    rcases gocx_mem h with h | h
    case inr => subst h; simp
    exact Or.inl h

theorem chs_log_mem (s : Stage) (m k r : String) :
    Event.setDefaultPrim ["World"] ∈ (create_hierarchy_structure s m k r).2 ∧
    ∀ i ∈ List.range' 1 8,
      Event.setRotKey glass_xform_path i (-45 * (i : Int)) ∈
        (create_hierarchy_structure s m k r).2 := by
  unfold create_hierarchy_structure
  dsimp only []
  split <;>
  · constructor
    · simp
    · intro i hi
      simp only [List.mem_append]
      refine Or.inl (Or.inl (Or.inl (Or.inr ?_)))
      exact List.mem_map.mpr ⟨i, hi, rfl⟩

/-! `_default_prim_set`: output characterization -/

theorem dps_mem (s : Stage) (pr : Prim) (h : pr ∈ (_default_prim_set s).prims) :
    pr ∈ s.prims ∨ pr = { path := ["World"], typeName := PrimType.Xform } ∨
      pr = { path := ["World", "Setup"], typeName := PrimType.Scope } := by
  unfold _default_prim_set at h
  dsimp only [] at h
  rcases gocs_mem h with h | h
  case inr => exact Or.inr (Or.inr h)
  simp only [stagemk_prims] at h
  rcases gocx_mem h with h | h
  · exact Or.inl h
  · exact Or.inr (Or.inl h)

theorem dps_exists_setup (s : Stage) :
    primExists (_default_prim_set s) ["World", "Setup"] = true := by
  unfold _default_prim_set
  dsimp only []
  simp

theorem dps_defaultPrim (s : Stage) :
    (_default_prim_set s).defaultPrim = some ["World"] := by
  unfold _default_prim_set
  dsimp only []
  simp

/-! ## Claims C4, C5, C6, C7, C8, C10 -/

/-- C4: for every document, target path, and asset path whose existence
check fails (local path absent / not a regular file, or remote URI that
cannot be opened), `import_payload` returns `notFound`, posts only the
warning notification, and leaves the document completely unchanged. -/
theorem claim_C4_import_missing_asset (fs : FileSystem) (s? : Option Stage)
    (payload : String) (target : PrimPath)
    (h : check_usd_file_exists fs payload = false) :
    import_payload fs s? payload target =
      (s?, AttachResult.notFound,
       [{ status := NotifStatus.warning,
          message := "ERROR: USD file not found: " ++ payload }]) := by
  unfold import_payload
  rw [h]
  simp

/-- Witness for C4 at a concrete missing local file. -/
theorem claim_C4_import_missing_asset_witness :
    check_usd_file_exists noFS "/missing/x.usd" = false ∧
    import_payload noFS (some emptyStage) "/missing/x.usd" ["World"] =
      (some emptyStage, AttachResult.notFound,
       [{ status := NotifStatus.warning,
          message := "ERROR: USD file not found: " ++ "/missing/x.usd" }]) :=
  ⟨by decide, claim_C4_import_missing_asset noFS (some emptyStage) "/missing/x.usd" ["World"]
    (by decide)⟩

/-- C8: `hide_all_scopes_except` with a target name matching no Scope
returns the target-not-found exit and leaves the document (including
every visibility attribute) untouched. -/
theorem claim_C8_isolate_target_missing (s : Stage) (T : String) (keep : List String)
    (h : find_scope_by_name s T = none) :
    hide_all_scopes_except (some s) T keep = (some s, IsolateResult.targetNotFound, []) := by
  unfold hide_all_scopes_except
  dsimp only []
  rw [h]

/-- Witness for C8 on a concrete document without the requested scope. -/
theorem claim_C8_isolate_target_missing_witness :
    find_scope_by_name exStage1 "Missing" = none ∧
    hide_all_scopes_except (some exStage1) "Missing" ["Setup"] =
      (some exStage1, IsolateResult.targetNotFound, []) :=
  ⟨by decide, claim_C8_isolate_target_missing exStage1 "Missing" ["Setup"] (by decide)⟩

/-- C10: every call of `create_hierarchy_structure` — on any stage, so
in particular repeat calls on an already-built hierarchy — rewrites the
default prim to `/World` and re-authors the eight Y-rotation samples
(angle `-45·i` at frame `i`, `i = 1..8`) on `/World/Models/glass_Xform`. -/
theorem claim_C10_unconditional_rewrite (s : Stage) (m k r : String) (i : Nat)
    (h1 : 1 ≤ i) (h2 : i ≤ 8) :
    (create_hierarchy_structure s m k r).1.defaultPrim = some ["World"] ∧
    Event.setDefaultPrim ["World"] ∈ (create_hierarchy_structure s m k r).2 ∧
    Event.setRotKey glass_xform_path i (-45 * (i : Int)) ∈
      (create_hierarchy_structure s m k r).2 ∧
    (create_hierarchy_structure s m k r).1.rotKeys glass_xform_path i =
      some (-45 * (i : Int)) := by
  refine ⟨chs_defaultPrim s m k r, (chs_log_mem s m k r).1,
    (chs_log_mem s m k r).2 i ?_, ?_⟩
  · rw [List.mem_range'_1]
    omega
  · rw [chs_rotKeys]
    rw [if_pos ⟨rfl, h1, h2⟩]

/-- Witness for C10 at frame 3 on the already-built stage. -/
theorem claim_C10_unconditional_rewrite_witness :
    1 ≤ 3 ∧ 3 ≤ 8 ∧
    ((create_hierarchy_structure (create_hierarchy_structure emptyStage "M" "S" "R").1
        "M" "S" "R").1.defaultPrim = some ["World"] ∧
      Event.setDefaultPrim ["World"] ∈
        (create_hierarchy_structure (create_hierarchy_structure emptyStage "M" "S" "R").1
          "M" "S" "R").2 ∧
      Event.setRotKey glass_xform_path 3 (-45 * (3 : Int)) ∈
        (create_hierarchy_structure (create_hierarchy_structure emptyStage "M" "S" "R").1
          "M" "S" "R").2 ∧
      (create_hierarchy_structure (create_hierarchy_structure emptyStage "M" "S" "R").1
          "M" "S" "R").1.rotKeys glass_xform_path 3 = some (-45 * (3 : Int))) :=
  ⟨by decide, by decide,
    claim_C10_unconditional_rewrite (create_hierarchy_structure emptyStage "M" "S" "R").1
      "M" "S" "R" 3 (by decide) (by decide)⟩

/-- C5 counterexample: the second identical call is not mutation-free —
it performs the default-prim rewrite (and keyframe writes) again. -/
theorem claim_C5_counterexample :
    Event.setDefaultPrim ["World"] ∈
      (create_hierarchy_structure (create_hierarchy_structure emptyStage "CD40235I" "52E" "261").1
        "CD40235I" "52E" "261").2 ∧
    (create_hierarchy_structure (create_hierarchy_structure emptyStage "CD40235I" "52E" "261").1
        "CD40235I" "52E" "261").2 ≠ [] := by
  constructor
  · decide
  · decide

/-- C5 (amended): a second `create_hierarchy_structure` call with the
same arguments creates zero new prims and leaves the whole document
state unchanged, but it is not mutation-free: it re-runs the
default-prim assignment and the eight keyframe writes. -/
theorem claim_C5_second_call (s : Stage) (m k r : String) :
    (create_hierarchy_structure (create_hierarchy_structure s m k r).1 m k r).1.prims =
      (create_hierarchy_structure s m k r).1.prims ∧
    (create_hierarchy_structure (create_hierarchy_structure s m k r).1 m k r).2 =
      Event.setDefaultPrim ["World"] ::
        (List.range' 1 8).map (fun i => Event.setRotKey glass_xform_path i (-45 * (i : Int))) ∧
    (create_hierarchy_structure (create_hierarchy_structure s m k r).1 m k r).1.vis =
      (create_hierarchy_structure s m k r).1.vis ∧
    (create_hierarchy_structure (create_hierarchy_structure s m k r).1 m k r).1.defaultPrim =
      (create_hierarchy_structure s m k r).1.defaultPrim ∧
    (∀ q, (create_hierarchy_structure (create_hierarchy_structure s m k r).1 m k r).1.hasRotY q =
      (create_hierarchy_structure s m k r).1.hasRotY q) ∧
    (∀ q f, (create_hierarchy_structure (create_hierarchy_structure s m k r).1 m k r).1.rotKeys q f =
      (create_hierarchy_structure s m k r).1.rotKeys q f) ∧
    (create_hierarchy_structure (create_hierarchy_structure s m k r).1 m k r).1.payloads =
      (create_hierarchy_structure s m k r).1.payloads ∧
    (create_hierarchy_structure (create_hierarchy_structure s m k r).1 m k r).1.loadAll =
      (create_hierarchy_structure s m k r).1.loadAll := by
  have h6 := chs_exists_all s m k r
  have hrot : (create_hierarchy_structure s m k r).1.hasRotY glass_xform_path = true := by
    rw [chs_hasRotY]; simp
  refine ⟨chs_prims_of_exists _ m k r h6, chs_log_of_built _ m k r h6 hrot,
    chs_vis _ m k r, ?_, ?_, ?_, chs_payloads _ m k r, chs_loadAll _ m k r⟩
  · rw [chs_defaultPrim, chs_defaultPrim]
  · intro q
    rw [chs_hasRotY]
    by_cases hq : q = glass_xform_path
    · subst hq; rw [if_pos rfl, hrot]
    · rw [if_neg hq]
  · intro q f
    rw [chs_rotKeys, chs_rotKeys]
    by_cases hc : q = glass_xform_path ∧ 1 ≤ f ∧ f ≤ 8
    · rw [if_pos hc, if_pos hc]
    · rw [if_neg hc]

/-- C6 counterexample: with an empty model name the hierarchy build does
not fail and mutates the document — six prims are created on a fresh
stage; no input validation of any kind happens. -/
theorem claim_C6_counterexample :
    (create_hierarchy_structure emptyStage "" "52E" "261").1.prims.length = 6 ∧
    (create_hierarchy_structure emptyStage "" "52E" "261").2 ≠ [] := by
  constructor
  · decide
  · decide

/-- C6 (amended): the hierarchy entry point performs no emptiness
validation at all — even when an identifier is the empty string the
canonical path is interpolated verbatim, the leaf prim is ensured, and
the mutating default-prim write is performed. -/
theorem claim_C6_no_validation (s : Stage) (m k r : String)
    (_h : m = "" ∨ k = "" ∨ r = "") :
    primExists (create_hierarchy_structure s m k r).1 (sku_prim_path m k r) = true ∧
    Event.setDefaultPrim ["World"] ∈ (create_hierarchy_structure s m k r).2 := by
  refine ⟨?_, (chs_log_mem s m k r).1⟩
  exact chs_exists_all s m k r (sku_prim_path m k r) (by simp [hierarchyPaths, sku_prim_path])

/-- Witness for C6 with an empty model name. -/
theorem claim_C6_no_validation_witness :
    (("" : String) = "" ∨ ("52E" : String) = "" ∨ ("261" : String) = "") ∧
    (primExists (create_hierarchy_structure emptyStage "" "52E" "261").1
        (sku_prim_path "" "52E" "261") = true ∧
      Event.setDefaultPrim ["World"] ∈ (create_hierarchy_structure emptyStage "" "52E" "261").2) :=
  ⟨Or.inl rfl, claim_C6_no_validation emptyStage "" "52E" "261" (Or.inl rfl)⟩

/-- C7 counterexample: on a fresh document `create_hierarchy_structure`
does not create `/World/Setup` — the `Setup` scope is only ensured by
the separate template bootstrap `_default_prim_set`. -/
theorem claim_C7_counterexample :
    getPrimAtPath (create_hierarchy_structure emptyStage "CD40235I" "52E" "261").1
      ["World", "Setup"] = none := by
  decide

/-- C7 (amended): on a fresh document `create_hierarchy_structure`
ensures a root `World` Xform marked as default prim, but authors no
`Setup` scope; `/World/Setup` is ensured (with the default prim) only by
the template bootstrap `_default_prim_set`. -/
theorem claim_C7_bootstrap (m k r : String) :
    (∃ pr ∈ (create_hierarchy_structure emptyStage m k r).1.prims,
        pr.path = ["World"] ∧ pr.typeName = PrimType.Xform) ∧
    (create_hierarchy_structure emptyStage m k r).1.defaultPrim = some ["World"] ∧
    getPrimAtPath (create_hierarchy_structure emptyStage m k r).1 ["World", "Setup"] = none ∧
    (∃ pr ∈ (_default_prim_set (create_hierarchy_structure emptyStage m k r).1).prims,
        pr.path = ["World", "Setup"] ∧ pr.typeName = PrimType.Scope) ∧
    (_default_prim_set (create_hierarchy_structure emptyStage m k r).1).defaultPrim =
      some ["World"] := by
  have hsetup : ∀ pr ∈ (create_hierarchy_structure emptyStage m k r).1.prims,
      pr.path ≠ ["World", "Setup"] := by
    intro pr hpr
    rcases chs_mem emptyStage m k r pr hpr with h | h
    · simp [emptyStage] at h
    · simp only [hierarchyPrims, glass_xform_path, List.mem_cons, List.not_mem_nil,
        or_false] at h
      rcases h with h|h|h|h|h|h <;> subst h <;> simp
  refine ⟨?_, chs_defaultPrim emptyStage m k r, ?_, ?_, dps_defaultPrim _⟩
  · have hex := chs_exists_all emptyStage m k r ["World"] (by simp [hierarchyPaths])
    rcases primExists_iff.mp hex with ⟨pr, hmem, hpath⟩
    refine ⟨pr, hmem, hpath, ?_⟩
    rcases chs_mem emptyStage m k r pr hmem with h | h
    · simp [emptyStage] at h
    · simp only [hierarchyPrims, glass_xform_path, List.mem_cons, List.not_mem_nil,
        or_false] at h
      rcases h with h|h|h|h|h|h <;> subst h <;> simp_all
  · unfold getPrimAtPath
    rw [List.find?_eq_none]
    intro pr hpr
    simp [hsetup pr hpr]
  · rcases primExists_iff.mp (dps_exists_setup (create_hierarchy_structure emptyStage m k r).1)
      with ⟨pr, hmem, hpath⟩
    refine ⟨pr, hmem, hpath, ?_⟩
    rcases dps_mem _ pr hmem with h | h | h
    · exact absurd hpath (hsetup pr h)
    · subst h; simp at hpath
    · subst h; rfl

/-! `_get_or_create_prim`: the creation loop -/

theorem defpr_exists_mono {s : Stage} {q : PrimPath} (p : PrimPath) (t : PrimType)
    (h : primExists s q = true) : primExists (definePrim s p t) q = true := by
  rcases primExists_iff.mp h with ⟨pr, hmem, hq⟩
  exact primExists_iff.mpr ⟨pr, mem_definePrim.mpr (Or.inl hmem), hq⟩

theorem cms_exists_mono {acc : Stage} {q : PrimPath} (parts : PrimPath) (kk : Nat)
    (h : primExists acc q = true) :
    primExists (create_missing_step parts acc kk) q = true := by
  unfold create_missing_step
  dsimp only []
  split
  · exact h
  · exact defpr_exists_mono _ _ h

theorem cms_exists_self (parts : PrimPath) (acc : Stage) (kk : Nat) :
    primExists (create_missing_step parts acc kk) (parts.take (kk + 1)) = true := by
  unfold create_missing_step
  dsimp only []
  split
  · assumption
  · exact primExists_iff.mpr ⟨_, mem_definePrim.mpr (Or.inr rfl), rfl⟩

theorem cms_mem {acc : Stage} {pr : Prim} (parts : PrimPath) (kk : Nat)
    (h : pr ∈ (create_missing_step parts acc kk).prims) :
    pr ∈ acc.prims ∨
      pr = { path := parts.take (kk + 1), typeName := kindFor (parts.getD kk "") } := by
  unfold create_missing_step at h
  dsimp only [] at h
  split at h
  · exact Or.inl h
  · exact mem_definePrim.mp h

theorem gocp_loop_exists (parts : PrimPath) (s : Stage) (n : Nat) :
    ∀ j, j < n →
      primExists ((List.range n).foldl (create_missing_step parts) s) (parts.take (j + 1)) =
        true := by
  induction n with
  | zero => intro j hj; omega
  | succ n ih =>
    intro j hj
    rw [List.range_succ, List.foldl_append, List.foldl_cons, List.foldl_nil]
    rcases Nat.lt_succ_iff_lt_or_eq.mp hj with h | h
    · exact cms_exists_mono parts n (ih j h)
    · subst h
      exact cms_exists_self parts _ j

theorem gocp_loop_mem (parts : PrimPath) (s : Stage) (n : Nat) (pr : Prim)
    (h : pr ∈ ((List.range n).foldl (create_missing_step parts) s).prims) :
    pr ∈ s.prims ∨
      ∃ j, j < n ∧
        pr = { path := parts.take (j + 1), typeName := kindFor (parts.getD j "") } := by
  induction n with
  | zero => exact Or.inl h
  | succ n ih =>
    rw [List.range_succ, List.foldl_append, List.foldl_cons, List.foldl_nil] at h
    rcases cms_mem parts n h with h | h
    · rcases ih h with h | ⟨j, hj, hpr⟩
      · exact Or.inl h
      · exact Or.inr ⟨j, Nat.lt_succ_of_lt hj, hpr⟩
    · exact Or.inr ⟨n, Nat.lt_succ_self n, h⟩

theorem take_getLastD (l : List String) (j : Nat) (d : String) (hj : j < l.length) :
    (l.take (j + 1)).getLastD d = l.getD j d := by
  induction l generalizing j d with
  | nil => simp at hj
  | cons a t ih =>
    cases j with
    | zero => simp
    | succ j =>
      have hj' : j < t.length := by simpa using hj
      rw [List.take_succ_cons, List.getLastD_cons, ih j a hj']
      rw [List.getD_eq_getElem t a hj', List.getD_eq_getElem (a :: t) d (by simpa using hj)]
      simp

/-- The name-first-search branch of `_get_or_create_prim`: if any prim
anywhere in the stage bears the leaf name, that prim is returned and
nothing is created. -/
theorem gocp_name_hit (s : Stage) (path : PrimPath) (pr0 : Prim)
    (h : s.prims.find? (fun q => q.name == path.getLastD "") = some pr0) :
    _get_or_create_prim s path = (s, some pr0) := by
  unfold _get_or_create_prim
  dsimp only []
  rw [h]

/-- The creation branch of `_get_or_create_prim`: with no name hit, the
missing prefixes are created and the prim at exactly `path` is
returned; each prim added by the call obeys the kind rule. -/
theorem gocp_no_name_hit (s : Stage) (path : PrimPath)
    (hne : path ≠ []) (hclean : ∀ seg ∈ path, seg ≠ "")
    (h : s.prims.find? (fun q => q.name == path.getLastD "") = none) :
    ∃ pr, (_get_or_create_prim s path).2 = some pr ∧ pr.path = path := by
  unfold _get_or_create_prim
  dsimp only []
  rw [h]
  dsimp only []
  have hparts : path.filter (fun part => part ≠ "") = path := by
    rw [List.filter_eq_self]
    intro a ha
    simpa using hclean a ha
  rw [hparts]
  have hlen : 0 < path.length := List.length_pos.mpr hne
  have hex : primExists ((List.range path.length).foldl (create_missing_step path) s)
      (path.take (path.length - 1 + 1)) = true :=
    gocp_loop_exists path s path.length (path.length - 1) (by omega)
  have hlen' : path.length - 1 + 1 = path.length := by omega
  rw [hlen', List.take_length] at hex
  unfold primExists at hex
  rcases Option.isSome_iff_exists.mp hex with ⟨pr', hfind⟩
  exact ⟨pr', hfind, (getPrimAtPath_eq_some hfind).2⟩

/-- Every prim added by `_get_or_create_prim` (in either branch) has the
kind the naming convention dictates for its name. -/
theorem gocp_kinds (s : Stage) (path : PrimPath) :
    ∀ pr ∈ (_get_or_create_prim s path).1.prims,
      pr ∈ s.prims ∨ pr.typeName = kindFor pr.name := by
  intro pr hpr
  unfold _get_or_create_prim at hpr
  dsimp only [] at hpr
  set parts := path.filter (fun part => part ≠ "") with hparts
  rcases hfind : s.prims.find? (fun q => q.name == path.getLastD "") with _ | pr0
  · rw [hfind] at hpr
    dsimp only [] at hpr
    rcases gocp_loop_mem parts s parts.length pr hpr with hmem | ⟨j, hj, hpr'⟩
    · exact Or.inl hmem
    · right
      subst hpr'
      show kindFor _ = kindFor ((parts.take (j + 1)).getLastD "")
      rw [take_getLastD parts j "" hj]
  · rw [hfind] at hpr
    exact Or.inl hpr

/-! ## Claims C2 and C3 -/

/-- C2 counterexample: with `/Other/Leaf` already in the document,
`ensurePath(document, "/A/Leaf")` returns the unrelated `/Other/Leaf`
prim (the first name match), creates nothing, and no prim exists at the
requested path — contradicting "returns the node located at exactly
that path ... regardless of whether other nodes elsewhere in the
document share the same leaf name". -/
theorem claim_C2_counterexample :
    (_get_or_create_prim exStage3 ["A", "Leaf"]).2 =
      some { path := ["Other", "Leaf"], typeName := PrimType.Scope } ∧
    (_get_or_create_prim exStage3 ["A", "Leaf"]).1.prims = exStage3.prims ∧
    getPrimAtPath (_get_or_create_prim exStage3 ["A", "Leaf"]).1 ["A", "Leaf"] = none ∧
    (["Other", "Leaf"] : PrimPath) ≠ ["A", "Leaf"] := by
  refine ⟨by decide, by decide, by decide, by decide⟩

/-- C2 (amended): `_get_or_create_prim` resolves by leaf name first:
when some prim anywhere bears the leaf name it returns the first such
prim unchanged (whatever its path); only when no prim bears that name
does it create the missing prefixes and return the prim at exactly the
requested path. -/
theorem claim_C2_ensure_path (s : Stage) (path : PrimPath)
    (hne : path ≠ []) (hclean : ∀ seg ∈ path, seg ≠ "") :
    (∀ pr0, s.prims.find? (fun q => q.name == path.getLastD "") = some pr0 →
      _get_or_create_prim s path = (s, some pr0)) ∧
    (s.prims.find? (fun q => q.name == path.getLastD "") = none →
      ∃ pr, (_get_or_create_prim s path).2 = some pr ∧ pr.path = path) := by
  constructor
  · intro pr0 h
    exact gocp_name_hit s path pr0 h
  · intro h
    exact gocp_no_name_hit s path hne hclean h

/-- Witness for C2 on a fresh document (creation branch) and on the
fixture with a shadowing leaf name (name-hit branch). -/
theorem claim_C2_ensure_path_witness :
    ((["A", "Leaf"] : PrimPath) ≠ [] ∧ ∀ seg ∈ (["A", "Leaf"] : PrimPath), seg ≠ "") ∧
    ((∀ pr0, emptyStage.prims.find?
        (fun q => q.name == (["A", "Leaf"] : PrimPath).getLastD "") = some pr0 →
      _get_or_create_prim emptyStage ["A", "Leaf"] = (emptyStage, some pr0)) ∧
    (emptyStage.prims.find? (fun q => q.name == (["A", "Leaf"] : PrimPath).getLastD "") = none →
      ∃ pr, (_get_or_create_prim emptyStage ["A", "Leaf"]).2 = some pr ∧
        pr.path = ["A", "Leaf"])) :=
  ⟨⟨by decide, by decide⟩,
    claim_C2_ensure_path emptyStage ["A", "Leaf"] (by decide) (by decide)⟩

/-- C3 counterexample: `create_hierarchy_structure` does not apply the
kind rule per segment — with release `"Xform"` the created segment
`Release_Xform` contains `"_Xform"` (so the rule dictates Group/Xform)
yet it is created as a Scope. -/
theorem claim_C3_counterexample :
    getPrimAtPath (create_hierarchy_structure emptyStage "M" "S" "Xform").1
        ["World", "Models", "glass_Xform", "M_Xform", "Release_Xform"] =
      some { path := ["World", "Models", "glass_Xform", "M_Xform", "Release_Xform"],
             typeName := PrimType.Scope } ∧
    kindFor "Release_Xform" = PrimType.Xform := by
  refine ⟨by decide, by decide⟩

theorem isPrefixOf_self (l : List Char) : l.isPrefixOf l = true := by
  simp [ List.isPrefixOf_iff_prefix]

theorem infixOfB_append_self (pre needle : List Char) :
    infixOfB needle (pre ++ needle) = true := by
  induction pre with
  | nil =>
    rw [List.nil_append]
    cases needle with
    | nil => rfl
    | cons c cs =>
      unfold infixOfB
      rw [isPrefixOf_self]
      simp
  | cons a pre ih =>
    rw [List.cons_append]
    unfold infixOfB
    rw [ih]
    simp

theorem containsSub_suffix (s t : String) : containsSub t (s ++ t) = true := by
  unfold containsSub
  have hl : (s ++ t).toList = s.toList ++ t.toList := by simp [String.toList]
  rw [hl]
  exact infixOfB_append_self s.toList t.toList

theorem release_ne_world (r : String) : ("Release_" ++ r) ≠ "World" := by
  intro he
  have h2 := congrArg String.length he
  have h8 : ("Release_" : String).length = 8 := rfl
  have h5 : ("World" : String).length = 5 := rfl
  rw [String.length_append, h8, h5] at h2
  omega

/-- C3 (amended): the kind rule (`Group` iff the segment equals
`"World"` or contains `"_Xform"`) holds for every segment created by
`_get_or_create_prim`; `create_hierarchy_structure` instead hard-codes
one kind per position, which agrees with the rule only when the release
and SKU segments do not themselves contain `"_Xform"` (or spell
`"World"`). -/
theorem claim_C3_kind_rule (s s2 : Stage) (path : PrimPath) (m k r : String)
    (hrel : containsSub "_Xform" ("Release_" ++ r) = false)
    (hsku : containsSub "_Xform" (m ++ "_" ++ k) = false)
    (hskuW : m ++ "_" ++ k ≠ "World") :
    (∀ pr ∈ (_get_or_create_prim s path).1.prims,
      pr ∈ s.prims ∨ pr.typeName = kindFor pr.name) ∧
    (∀ pr ∈ (create_hierarchy_structure s2 m k r).1.prims,
      pr ∈ s2.prims ∨ pr.typeName = kindFor pr.name) := by
  constructor
  · exact gocp_kinds s path
  · intro pr hpr
    rcases chs_mem s2 m k r pr hpr with h | h
    · exact Or.inl h
    · right
      simp only [hierarchyPrims, glass_xform_path, List.mem_cons, List.not_mem_nil,
        or_false] at h
      rcases h with h|h|h|h|h|h <;> subst h
      · decide
      · decide
      · decide
      · show PrimType.Xform = kindFor (Prim.name _)
        have hname : Prim.name
            { path := ["World", "Models", "glass_Xform", m ++ "_Xform"],
              typeName := PrimType.Xform } = m ++ "_Xform" := rfl
        rw [hname]
        unfold kindFor
        rw [containsSub_suffix m "_Xform"]
        rfl
      · show PrimType.Scope = kindFor (Prim.name _)
        have hname : Prim.name
            { path := ["World", "Models", "glass_Xform", m ++ "_Xform", "Release_" ++ r],
              typeName := PrimType.Scope } = "Release_" ++ r := rfl
        rw [hname]
        unfold kindFor
        rw [hrel]
        have hne : (("Release_" ++ r) == "World") = false :=
          beq_eq_false_iff_ne.mpr (release_ne_world r)
        rw [hne]
        rfl
      · show PrimType.Scope = kindFor (Prim.name _)
        have hname : Prim.name
            { path := ["World", "Models", "glass_Xform", m ++ "_Xform", "Release_" ++ r,
                m ++ "_" ++ k],
              typeName := PrimType.Scope } = m ++ "_" ++ k := rfl
        rw [hname]
        unfold kindFor
        rw [hsku]
        have hne : ((m ++ "_" ++ k) == "World") = false := beq_eq_false_iff_ne.mpr hskuW
        rw [hne]
        rfl

/-- Witness for C3 on concrete identifiers. -/
theorem claim_C3_kind_rule_witness :
    (containsSub "_Xform" ("Release_" ++ "261") = false ∧
      containsSub "_Xform" ("CD40235I" ++ "_" ++ "52E") = false ∧
      ("CD40235I" ++ "_" ++ "52E") ≠ "World") ∧
    ((∀ pr ∈ (_get_or_create_prim exStage3 ["A", "Leaf"]).1.prims,
        pr ∈ exStage3.prims ∨ pr.typeName = kindFor pr.name) ∧
      (∀ pr ∈ (create_hierarchy_structure emptyStage "CD40235I" "52E" "261").1.prims,
        pr ∈ emptyStage.prims ∨ pr.typeName = kindFor pr.name)) :=
  ⟨⟨by decide, by decide, by decide⟩,
    claim_C3_kind_rule exStage3 emptyStage ["A", "Leaf"] "CD40235I" "52E" "261"
      (by decide) (by decide) (by decide)⟩

/-! ## Claim C9 -/

/-- C9 counterexample: the target-not-found failure path of the isolate
operation posts no notification at all (the source only `print`s), so
not every failure path is surfaced to the user. -/
theorem claim_C9_counterexample :
    find_scope_by_name exStage1 "Missing" = none ∧
    (hide_all_scopes_except (some exStage1) "Missing" []).2 =
      (IsolateResult.targetNotFound, ([] : List Notif)) := by
  refine ⟨by decide, by decide⟩

/-- C9 (amended): `import_payload`'s failure paths (missing asset,
exception during attach) each post a warning notification, but the
isolate operation's failure paths (target scope not found, no active
stage) post none — they print to the console only. -/
theorem claim_C9_notification_paths (fs : FileSystem) (s? : Option Stage)
    (payload : String) (target : PrimPath) (s : Stage) (T : String) (keep : List String) :
    (check_usd_file_exists fs payload = false →
      (import_payload fs s? payload target).2.2 =
        [{ status := NotifStatus.warning,
           message := "ERROR: USD file not found: " ++ payload }]) ∧
    (check_usd_file_exists fs payload = true →
      (import_payload fs none payload target).2.2 =
        [{ status := NotifStatus.warning,
           message := "ERROR during import: " ++ "No active stage found" }]) ∧
    (find_scope_by_name s T = none →
      (hide_all_scopes_except (some s) T keep).2 =
        (IsolateResult.targetNotFound, ([] : List Notif))) ∧
    (hide_all_scopes_except none T keep).2 = (IsolateResult.noStage, ([] : List Notif)) := by
  refine ⟨?_, ?_, ?_, rfl⟩
  · intro h
    unfold import_payload
    rw [h]
    simp
  · intro h
    unfold import_payload
    rw [h]
    simp [assign_payload]
  · intro h
    unfold hide_all_scopes_except
    dsimp only []
    rw [h]

/-- Witness for C9 exercising all four paths at concrete inputs. -/
theorem claim_C9_notification_paths_witness :
    ((import_payload noFS (some emptyStage) "/missing/x.usd" ["World"]).2.2 =
      [{ status := NotifStatus.warning,
         message := "ERROR: USD file not found: " ++ "/missing/x.usd" }]) ∧
    ((import_payload allFS none "/present/x.usd" ["World"]).2.2 =
      [{ status := NotifStatus.warning,
         message := "ERROR during import: " ++ "No active stage found" }]) ∧
    ((hide_all_scopes_except (some exStage1) "Missing" ["Setup"]).2 =
      (IsolateResult.targetNotFound, ([] : List Notif))) ∧
    (hide_all_scopes_except none "T" ["Setup"]).2 = (IsolateResult.noStage, ([] : List Notif)) :=
  ⟨(claim_C9_notification_paths noFS (some emptyStage) "/missing/x.usd" ["World"] exStage1
      "Missing" ["Setup"]).1 (by decide),
   (claim_C9_notification_paths allFS (some emptyStage) "/present/x.usd" ["World"] exStage1
      "Missing" ["Setup"]).2.1 (by decide),
   (claim_C9_notification_paths allFS (some emptyStage) "/present/x.usd" ["World"] exStage1
      "Missing" ["Setup"]).2.2.1 (by decide),
   (claim_C9_notification_paths allFS none "/present/x.usd" ["World"] exStage1
      "T" ["Setup"]).2.2.2⟩

/-! basic writer lemmas -/

theorem set_visibility_vis (s : Stage) (p : PrimPath) (b : Bool) (q : PrimPath) :
    (set_visibility s p b).vis q =
      if q = p then (if b then Vis.inherited else Vis.invisible) else s.vis q := rfl

theorem set_visibility_prims (s : Stage) (p : PrimPath) (b : Bool) :
    (set_visibility s p b).prims = s.prims := rfl

theorem isDescendantOf_self (p : PrimPath) : isDescendantOf p p = false := by
  unfold isDescendantOf
  simp

theorem isDescendantOf_iff (p a : PrimPath) :
    isDescendantOf p a = true ↔ (a <+: p ∧ p ≠ a) := by
  unfold isDescendantOf
  rw [Bool.and_eq_true, List.isPrefixOf_iff_prefix, bne_iff_ne]

theorem isDescendantOf_eq_false (p a : PrimPath) :
    isDescendantOf p a = false ↔ (¬ a <+: p ∨ p = a) := by
  rw [← Bool.not_eq_true, isDescendantOf_iff]
  tauto

/-! make_children_visible -/

theorem mcv_fold_untouched (parent q : PrimPath) (h : isDescendantOf q parent = false) :
    ∀ (l : List Prim) (acc : Stage),
      (l.foldl (fun acc pr =>
        if isDescendantOf pr.path parent then set_visibility acc pr.path true else acc)
        acc).vis q = acc.vis q := by
  intro l
  induction l with
  | nil => intro acc; rfl
  | cons hd tl ih =>
    intro acc
    rw [List.foldl_cons, ih]
    split
    · rename_i hd_desc
      rw [set_visibility_vis]
      have : q ≠ hd.path := by
        intro he
        rw [he] at h
        rw [h] at hd_desc
        cases hd_desc
      rw [if_neg this]
    · rfl

theorem mcv_vis_untouched (s : Stage) (parent q : PrimPath)
    (h : isDescendantOf q parent = false) :
    (make_children_visible s parent).vis q = s.vis q := by
  unfold make_children_visible
  exact mcv_fold_untouched parent q h s.prims s

theorem mcv_fold_prims :
    ∀ (parent : PrimPath) (l : List Prim) (acc : Stage),
      (l.foldl (fun acc pr =>
        if isDescendantOf pr.path parent then set_visibility acc pr.path true else acc)
        acc).prims = acc.prims := by
  intro parent l
  induction l with
  | nil => intro acc; rfl
  | cons hd tl ih =>
    intro acc
    rw [List.foldl_cons, ih]
    split <;> rfl

theorem mcv_prims (s : Stage) (parent : PrimPath) :
    (make_children_visible s parent).prims = s.prims := by
  unfold make_children_visible
  exact mcv_fold_prims parent s.prims s

/-! make_parents_visible -/

theorem mpv_fold_vis (q : PrimPath) :
    ∀ (l : List PrimPath) (acc : Stage),
      (l.foldl (fun acc a => set_visibility acc a true) acc).vis q =
        if q ∈ l then Vis.inherited else acc.vis q := by
  intro l
  induction l with
  | nil => intro acc; simp
  | cons hd tl ih =>
    intro acc
    rw [List.foldl_cons, ih]
    by_cases hmem : q ∈ tl
    · rw [if_pos hmem, if_pos (List.mem_cons.mpr (Or.inr hmem))]
    · rw [if_neg hmem, set_visibility_vis]
      by_cases hq : q = hd
      · rw [if_pos hq, if_pos (List.mem_cons.mpr (Or.inl hq))]
        rfl
      · rw [if_neg hq, if_neg (by simp [hq, hmem])]

theorem mpv_vis (s : Stage) (p q : PrimPath) :
    (make_parents_visible s p).vis q =
      if q ∈ strictAncestors p then Vis.inherited else s.vis q := by
  unfold make_parents_visible
  exact mpv_fold_vis q (strictAncestors p) s

theorem mpv_fold_prims :
    ∀ (l : List PrimPath) (acc : Stage),
      (l.foldl (fun acc a => set_visibility acc a true) acc).prims = acc.prims := by
  intro l
  induction l with
  | nil => intro acc; rfl
  | cons hd tl ih => intro acc; rw [List.foldl_cons, ih]; rfl

theorem mpv_prims (s : Stage) (p : PrimPath) :
    (make_parents_visible s p).prims = s.prims := by
  unfold make_parents_visible
  exact mpv_fold_prims (strictAncestors p) s

theorem isStrictAncB_iff (a p : PrimPath) :
    isStrictAncB a p = true ↔ (a ≠ [] ∧ a <+: p ∧ a ≠ p) := by
  unfold isStrictAncB
  rw [Bool.and_eq_true, Bool.and_eq_true, List.isPrefixOf_iff_prefix, bne_iff_ne, bne_iff_ne]
  tauto

theorem mem_strictAncestors (q p : PrimPath) :
    q ∈ strictAncestors p ↔ isStrictAncB q p = true := by
  rw [isStrictAncB_iff]
  unfold strictAncestors
  rw [List.mem_map]
  constructor
  · rintro ⟨kk, hkk, rfl⟩
    rw [List.mem_range'_1] at hkk
    have h1 : 1 ≤ kk := hkk.1
    have h2 : kk < p.length := by omega
    refine ⟨?_, ?_, ?_⟩
    · have : (p.take kk).length = kk := by
        rw [List.length_take]; omega
      intro he
      rw [he] at this
      simp at this
      omega
    · exact List.take_prefix kk p
    · intro he
      have := congrArg List.length he
      rw [List.length_take] at this
      omega
  · rintro ⟨hne, hpre, hneq⟩
    refine ⟨q.length, ?_, ?_⟩
    · rw [List.mem_range'_1]
      have hle : q.length ≤ p.length := hpre.length_le
      have hlt : q.length < p.length := by
        rcases Nat.lt_or_ge q.length p.length with h | h
        · exact h
        · exfalso
          have : q.length = p.length := by omega
          have hq := List.prefix_iff_eq_take.mp hpre
          rw [this, List.take_length] at hq
          exact hneq hq
      have hpos : 0 < q.length := List.length_pos.mpr hne
      omega
    · exact (List.prefix_iff_eq_take.mp hpre).symm

theorem isPrefixOf_self_eq {α : Type} [BEq α] [LawfulBEq α] (l : List α) :
    l.isPrefixOf l = true := by
  simp [ List.isPrefixOf_iff_prefix]

theorem isolate_step_prims (t : PrimPath) (kp : List (String × Prim)) (acc : Stage)
    (pr : Prim) : (isolate_step t kp acc pr).prims = acc.prims := by
  unfold isolate_step
  repeat' split
  all_goals simp [mcv_prims, set_visibility_prims]

theorem isolate_step_vis_self (t : PrimPath) (kp : List (String × Prim)) (acc : Stage)
    (pr : Prim) (hscope : pr.typeName = PrimType.Scope) :
    (isolate_step t kp acc pr).vis pr.path =
      if classifyB t kp pr then Vis.inherited else Vis.invisible := by
  unfold isolate_step classifyB
  rw [if_pos hscope]
  by_cases h1 : pr.path = t
  · rw [if_pos h1, mcv_vis_untouched _ _ _ (isDescendantOf_self pr.path),
      set_visibility_vis, if_pos rfl]
    have hb : (pr.path == t) = true := beq_iff_eq.mpr h1
    rw [hb]
    rfl
  · rw [if_neg h1]
    have hb1 : (pr.path == t) = false := by simp [h1]
    by_cases h2 : isDescendantOf pr.path t = true
    · rw [if_pos h2, mcv_vis_untouched _ _ _ (isDescendantOf_self pr.path),
        set_visibility_vis, if_pos rfl, hb1, h2]
      rfl
    · have h2f : isDescendantOf pr.path t = false := by
        revert h2; cases isDescendantOf pr.path t <;> simp
      rw [if_neg h2, hb1, h2f]
      rcases hl : kp.lookup pr.name with _ | kpv
      · dsimp only []
        rw [set_visibility_vis, if_pos rfl]
        rfl
      · dsimp only []
        by_cases h3 : pr.path = kpv.path
        · rw [if_pos h3, mcv_vis_untouched _ _ _ (isDescendantOf_self pr.path),
            set_visibility_vis, if_pos rfl]
          have hb3 : (pr.path == kpv.path) = true := beq_iff_eq.mpr h3
          rw [hb3]
          rfl
        · rw [if_neg h3, set_visibility_vis, if_pos rfl]
          have hb3 : (pr.path == kpv.path) = false := by simp [h3]
          rw [hb3]
          rfl

theorem isolate_step_vis_untouched (t : PrimPath) (kp : List (String × Prim)) (acc : Stage)
    (pr : Prim) (P : PrimPath) (h : pr.path.isPrefixOf P = false) :
    (isolate_step t kp acc pr).vis P = acc.vis P := by
  have hne : P ≠ pr.path := by
    intro he
    rw [he, isPrefixOf_self_eq] at h
    cases h
  have hdesc : isDescendantOf P pr.path = false := by
    unfold isDescendantOf
    rw [h]
    rfl
  unfold isolate_step
  repeat' split
  all_goals first
    | rfl
    | rw [mcv_vis_untouched _ _ _ hdesc, set_visibility_vis, if_neg hne]
    | rw [set_visibility_vis, if_neg hne]

theorem isolate_loop_untouched (t : PrimPath) (kp : List (String × Prim)) (P : PrimPath) :
    ∀ (l : List Prim) (acc : Stage), (∀ b ∈ l, b.path.isPrefixOf P = false) →
      (l.foldl (isolate_step t kp) acc).vis P = acc.vis P := by
  intro l
  induction l with
  | nil => intro acc _; rfl
  | cons hd tl ih =>
    intro acc h
    rw [List.foldl_cons, ih _ (fun b hb => h b (List.mem_cons.mpr (Or.inr hb)))]
    exact isolate_step_vis_untouched t kp acc hd P (h hd (List.mem_cons.mpr (Or.inl rfl)))

theorem isolate_loop_prims (t : PrimPath) (kp : List (String × Prim)) :
    ∀ (l : List Prim) (acc : Stage), (l.foldl (isolate_step t kp) acc).prims = acc.prims := by
  intro l
  induction l with
  | nil => intro acc; rfl
  | cons hd tl ih =>
    intro acc
    rw [List.foldl_cons, ih, isolate_step_prims]

theorem isolate_loop_vis (t : PrimPath) (kp : List (String × Prim)) :
    ∀ (l : List Prim) (acc : Stage),
      l.Pairwise (fun a b => b.path.isPrefixOf a.path = false) →
      ∀ pr ∈ l, pr.typeName = PrimType.Scope →
        (l.foldl (isolate_step t kp) acc).vis pr.path =
          if classifyB t kp pr then Vis.inherited else Vis.invisible := by
  intro l
  induction l with
  | nil => intro acc _ pr h; cases h
  | cons hd tl ih =>
    intro acc hpw pr hmem hscope
    rw [List.foldl_cons]
    rcases List.mem_cons.mp hmem with he | hm
    · subst he
      have hrest : ∀ b ∈ tl, b.path.isPrefixOf pr.path = false := (List.pairwise_cons.mp hpw).1
      rw [isolate_loop_untouched t kp pr.path tl _ hrest]
      exact isolate_step_vis_self t kp acc pr hscope
    · exact ih _ (List.pairwise_cons.mp hpw).2 pr hm hscope

theorem find_scope_spec {s : Stage} {n : String} {pr : Prim}
    (h : find_scope_by_name s n = some pr) :
    pr ∈ s.prims ∧ pr.typeName = PrimType.Scope ∧ pr.name = n := by
  unfold find_scope_by_name at h
  have hmem := List.mem_of_find?_eq_some h
  have hp := List.find?_some h
  rw [Bool.and_eq_true, beq_iff_eq, beq_iff_eq] at hp
  exact ⟨hmem, hp.1, hp.2⟩

theorem keep_found_mem (s : Stage) (K : List String) (e : String × Prim) :
    e ∈ keep_found s K ↔ e.1 ∈ K ∧ find_scope_by_name s e.1 = some e.2 := by
  unfold keep_found
  rw [List.mem_filterMap]
  constructor
  · rintro ⟨n, hn, he⟩
    rcases hf : find_scope_by_name s n with _ | pr
    · rw [hf] at he; cases he
    · rw [hf] at he
      rw [Option.map_some'] at he
      injection he with he
      rw [← he]
      exact ⟨hn, hf⟩
  · rintro ⟨hn, hf⟩
    exact ⟨e.1, hn, by rw [hf]; simp⟩

theorem keep_found_lookup (s : Stage) (K : List String) (n : String) (kp : Prim) :
    (keep_found s K).lookup n = some kp ↔ (n ∈ K ∧ find_scope_by_name s n = some kp) := by
  induction K with
  | nil => simp [keep_found]
  | cons hd tl ih =>
    unfold keep_found at ih ⊢
    rw [List.filterMap_cons]
    rcases hf : find_scope_by_name s hd with _ | pr
    · rw [Option.map_none']
      rw [ih]
      constructor
      · rintro ⟨hn, hfind⟩
        exact ⟨List.mem_cons.mpr (Or.inr hn), hfind⟩
      · rintro ⟨hn, hfind⟩
        rcases List.mem_cons.mp hn with rfl | hn'
        · rw [hf] at hfind; cases hfind
        · exact ⟨hn', hfind⟩
    · rw [Option.map_some']
      rw [List.lookup_cons]
      by_cases hn : n = hd
      · subst hn
        rw [beq_self_eq_true n]
        dsimp only []
        constructor
        · intro he
          injection he with he
          exact ⟨List.mem_cons.mpr (Or.inl rfl), by rw [hf, he]⟩
        · rintro ⟨_, hfind⟩
          rw [hf] at hfind
          injection hfind with hfind
          rw [hfind]
      · have hb : (n == hd) = false := by simp [hn]
        rw [hb]
        dsimp only []
        rw [ih]
        constructor
        · rintro ⟨hmem, hfind⟩
          exact ⟨List.mem_cons.mpr (Or.inr hmem), hfind⟩
        · rintro ⟨hmem, hfind⟩
          rcases List.mem_cons.mp hmem with rfl | hmem'
          · exact absurd rfl hn
          · exact ⟨hmem', hfind⟩

theorem path_eq_name_eq {a b : Prim} (h : a.path = b.path) : a.name = b.name := by
  unfold Prim.name
  rw [h]

theorem mpv_keep_fold_vis (q : PrimPath) :
    ∀ (l : List (String × Prim)) (acc : Stage),
      (l.foldl (fun acc e => make_parents_visible acc e.2.path) acc).vis q =
        if ∃ e ∈ l, q ∈ strictAncestors e.2.path then Vis.inherited else acc.vis q := by
  intro l
  induction l with
  | nil => intro acc; simp
  | cons hd tl ih =>
    intro acc
    rw [List.foldl_cons, ih]
    by_cases hmem : ∃ e ∈ tl, q ∈ strictAncestors e.2.path
    · rw [if_pos hmem, if_pos ⟨hmem.choose, List.mem_cons.mpr (Or.inr hmem.choose_spec.1),
        hmem.choose_spec.2⟩]
    · rw [if_neg hmem, mpv_vis]
      by_cases hq : q ∈ strictAncestors hd.2.path
      · rw [if_pos hq, if_pos ⟨hd, List.mem_cons.mpr (Or.inl rfl), hq⟩]
      · rw [if_neg hq, if_neg ?_]
        rintro ⟨e, he, hqe⟩
        rcases List.mem_cons.mp he with rfl | he'
        · exact hq hqe
        · exact hmem ⟨e, he', hqe⟩

theorem keep_entry_name {s : Stage} {keep : List String} {e : String × Prim}
    (he : e ∈ keep_found s keep) : e.2.name = e.1 :=
  (find_scope_spec ((keep_found_mem s keep e).mp he).2).2.2

theorem classify_keep_eq (s : Stage) (keep : List String) (pr : Prim) :
    (match (keep_found s keep).lookup pr.name with
     | some kpv => pr.path == kpv.path
     | none => false) =
      (keep_found s keep).any (fun e => pr.path == e.2.path) := by
  rcases hl : (keep_found s keep).lookup pr.name with _ | kpv
  · dsimp only []
    symm
    rw [List.any_eq_false]
    rintro e he
    rw [beq_iff_eq]
    intro hpe
    have hname : pr.name = e.1 := by
      rw [← keep_entry_name he]
      exact path_eq_name_eq hpe
    have hfind := ((keep_found_mem s keep e).mp he).2
    have : (keep_found s keep).lookup pr.name = some e.2 := by
      rw [keep_found_lookup]
      rw [hname]
      exact ⟨((keep_found_mem s keep e).mp he).1, hfind⟩
    rw [hl] at this
    cases this
  · dsimp only []
    have hlk := (keep_found_lookup s keep pr.name kpv).mp hl
    by_cases hp : pr.path = kpv.path
    · have hmem : (pr.name, kpv) ∈ keep_found s keep :=
        (keep_found_mem s keep (pr.name, kpv)).mpr hlk
      have hany : (keep_found s keep).any (fun e => pr.path == e.2.path) = true :=
        List.any_eq_true.mpr ⟨(pr.name, kpv), hmem, beq_iff_eq.mpr hp⟩
      rw [hany, beq_iff_eq.mpr hp]
    · have hb : (pr.path == kpv.path) = false := by simp [hp]
      rw [hb]
      symm
      rw [List.any_eq_false]
      rintro e he
      rw [beq_iff_eq]
      intro hpe
      have hname : pr.name = e.1 := by
        rw [← keep_entry_name he]
        exact path_eq_name_eq hpe
      have hfind := ((keep_found_mem s keep e).mp he).2
      have : (keep_found s keep).lookup pr.name = some e.2 := by
        rw [keep_found_lookup]
        rw [hname]
        exact ⟨((keep_found_mem s keep e).mp he).1, hfind⟩
      rw [hl] at this
      injection this with this
      rw [← this] at hpe
      exact hp hpe

/-- C1 (amended): after a successful isolate, a Scope prim is authored
visible exactly when it is the target, a strict descendant of the
target, the first-found prim of a keep name, or a strict ancestor of
the target or of a found keep prim; every other Scope prim is authored
explicitly invisible.  (Descendants of keep prims are *not* kept
visible, unlike the original claim.) -/
theorem claim_C1_visibility_partition (s : Stage) (T : String) (keep : List String)
    (hord : StageOrdered s) (tprim : Prim) (hT : find_scope_by_name s T = some tprim)
    (pr : Prim) (hpr : pr ∈ s.prims) (hscope : pr.typeName = PrimType.Scope) :
    (hide_all_scopes_except (some s) T keep).2.1 = IsolateResult.ok ∧
    ((hide_all_scopes_except (some s) T keep).1.map (fun st => st.vis pr.path)) =
      some (if coveredB s T keep pr.path then Vis.inherited else Vis.invisible) := by
  unfold hide_all_scopes_except
  dsimp only []
  rw [hT]
  dsimp only []
  refine ⟨rfl, ?_⟩
  rw [Option.map_some']
  refine congrArg some ?_
  have hbase := isolate_loop_vis tprim.path (keep_found s keep) s.prims s hord pr hpr hscope
  rw [mpv_keep_fold_vis, mpv_vis, hbase]
  unfold coveredB
  rw [hT]
  dsimp only []
  unfold classifyB
  rw [classify_keep_eq]
  simp only [mem_strictAncestors, ← List.any_eq_true]
  cases h1 : (pr.path == tprim.path) <;>
    cases h2 : isDescendantOf pr.path tprim.path <;>
    cases h3 : (keep_found s keep).any (fun e => pr.path == e.2.path) <;>
    cases h4 : isStrictAncB pr.path tprim.path <;>
    cases h5 : (keep_found s keep).any (fun e => isStrictAncB pr.path e.2.path) <;>
    simp [h1, h2, h3, h4, h5]

/-- C1 counterexample: `Kid` lies in the subtree of the keep scope
`Keep`, so the claimed partition makes it visible; the code hides it
(its own loop iteration re-classifies it after the keep scope's
`make_children_visible`). -/
theorem claim_C1_counterexample :
    claimVisible exStage1 "T" ["Keep"] ["World", "Keep", "Kid"] = true ∧
    ((hide_all_scopes_except (some exStage1) "T" ["Keep"]).1.map
        (fun st => st.vis ["World", "Keep", "Kid"])) = some Vis.invisible ∧
    (∃ pr ∈ exStage1.prims,
      pr.path = ["World", "Keep", "Kid"] ∧ pr.typeName = PrimType.Scope) := by
  refine ⟨by decide, by decide, by decide⟩

/-- Witness for C1 on the fixture document, at the keep scope's child. -/
theorem claim_C1_visibility_partition_witness :
    StageOrdered exStage1 ∧
    find_scope_by_name exStage1 "T" =
      some { path := ["World", "T"], typeName := PrimType.Scope } ∧
    ({ path := ["World", "Keep", "Kid"], typeName := PrimType.Scope } : Prim) ∈
      exStage1.prims ∧
    ((hide_all_scopes_except (some exStage1) "T" ["Keep"]).2.1 = IsolateResult.ok ∧
      ((hide_all_scopes_except (some exStage1) "T" ["Keep"]).1.map
          (fun st => st.vis ["World", "Keep", "Kid"])) =
        some (if coveredB exStage1 "T" ["Keep"] ["World", "Keep", "Kid"] then Vis.inherited
          else Vis.invisible)) :=
  ⟨by decide, by decide, by decide,
    claim_C1_visibility_partition exStage1 "T" ["Keep"] (by decide)
      { path := ["World", "T"], typeName := PrimType.Scope } (by decide)
      { path := ["World", "Keep", "Kid"], typeName := PrimType.Scope } (by decide) (by decide)⟩

end Omniverse
